import Mathlib

/-!
Shallow embedding of the ezdxf tag/attribute marshalling core.

The embedding covers:
* the POINT entity (src/src/ezdxf/entities/point.py): schema `acdb_point`,
  `load_dxf_attribs`, `export_entity`, `transform`, `translate`;
* the modern DXF factory (src/ezdxf/modern/__init__.py): the
  `UPDATE_ENTITY_WRAPPERS` override table layered over the legacy wrapper
  table and the `TAGS_MODIFIER` fixup-hook dispatch of `modify_tags`;
* the mesh edit session (`MeshData` of ezdxf.modern.mesh): the class itself is
  not part of the supplied sources (only its tests are), so `add_vertex`,
  `add_face` and `optimize` are modelled from the specification's description
  of the mesh edit/optimize algorithm.

Floating point numbers of the original code are modelled as rationals, so that
all definitions are executable and all equalities decidable.
-/

namespace Ezdxf

/-- A 3-component vector, the model of `ezdxf.math.Vector`.  Coordinates are
rationals standing in for the doubles of the implementation. -/
structure Vec3 where
  x : ℚ
  y : ℚ
  z : ℚ
deriving DecidableEq, Repr

instance : Add Vec3 := ⟨fun a b => ⟨a.x + b.x, a.y + b.y, a.z + b.z⟩⟩

theorem Vec3.add_def (a b : Vec3) : a + b = ⟨a.x + b.x, a.y + b.y, a.z + b.z⟩ := rfl

/-- Model of `ezdxf.math.Matrix44` restricted to its affine action on
3-vectors: a 3x3 linear part together with a translation column. -/
structure Matrix44 where
  m11 : ℚ
  m12 : ℚ
  m13 : ℚ
  m21 : ℚ
  m22 : ℚ
  m23 : ℚ
  m31 : ℚ
  m32 : ℚ
  m33 : ℚ
  tx : ℚ
  ty : ℚ
  tz : ℚ
deriving DecidableEq, Repr

/-- Linear part of the affine map: directions are transformed without the
translation component (`Matrix44.transform_direction`). -/
def Matrix44.transform_direction (m : Matrix44) (v : Vec3) : Vec3 :=
  ⟨m.m11 * v.x + m.m12 * v.y + m.m13 * v.z,
   m.m21 * v.x + m.m22 * v.y + m.m23 * v.z,
   m.m31 * v.x + m.m32 * v.y + m.m33 * v.z⟩

/-- Full affine action on a position (`Matrix44.transform`): linear part
followed by the translation. -/
def Matrix44.transform (m : Matrix44) (v : Vec3) : Vec3 :=
  m.transform_direction v + ⟨m.tx, m.ty, m.tz⟩

/-- The attribute namespace of a POINT entity, with the four attributes of the
`AcDbPoint` subclass schema (`acdb_point`): `location` (code 10),
`thickness` (code 39), `extrusion` (code 210) and `angle` (code 50). -/
structure Point where
  location : Vec3
  thickness : ℚ
  extrusion : Vec3
  angle : ℚ
deriving DecidableEq, Repr

/-- Modelled from the spec: the shared helper
`ezdxf.math.transformtools.transform_thickness_and_extrusion_without_ocs` is
not among the supplied sources.  Per the specification, pure direction/extent
attributes (extrusion vector and thickness) are mapped through the
transform's linear part only, never through the translation, and no other
attribute is touched.  The magnitude/direction renormalisation of the real
library is not representable over the rationals (it needs a square root) and
is irrelevant to the claims below, so the thickness scalar is kept and the
extrusion vector is mapped through the linear part. -/
def transform_thickness_and_extrusion_without_ocs (p : Point) (m : Matrix44) : Point :=
  { p with extrusion := m.transform_direction p.extrusion }

/-- `Point.transform`: the location is mapped through the full affine
transform, thickness and extrusion through the shared helper; `dxf.angle` is
deliberately ignored (comment in the source: "ignore dxf.angle!"). -/
def Point.transform (p : Point) (m : Matrix44) : Point :=
  transform_thickness_and_extrusion_without_ocs
    { p with location := m.transform p.location } m

/-- `Point.translate`: optimized translation, only the location is shifted,
by `Vector(dx, dy, dz) + self.dxf.location`. -/
def Point.translate (p : Point) (dx dy dz : ℚ) : Point :=
  { p with location := Vec3.mk dx dy dz + p.location }

/-- A mutable store of POINT entities, used to express the in-place mutation
and `return self` discipline of the Python methods: an entity reference is an
index into the store, a method maps the store to an updated store together
with the reference it returns. -/
def PointStore : Type := Nat → Point

/-- The Python method `Point.transform` as a store action: it overwrites the
entity behind the reference with its transformed value and returns the very
reference it was called on (`return self`). -/
def Point.transformInPlace (s : PointStore) (i : Nat) (m : Matrix44) : PointStore × Nat :=
  (fun j => if j = i then (s i).transform m else s j, i)

/-- The Python method `Point.translate` as a store action: it overwrites the
entity behind the reference with its translated value and returns the very
reference it was called on (`return self`). -/
def Point.translateInPlace (s : PointStore) (i : Nat) (dx dy dz : ℚ) : PointStore × Nat :=
  (fun j => if j = i then (s i).translate dx dy dz else s j, i)

/-- A DXF tag value: text, a number, or a composite 3-component point value.
Numbers are rationals standing in for the doubles and integers of the
implementation. -/
inductive TagValue where
  | str : String → TagValue
  | num : ℚ → TagValue
  | vec : Vec3 → TagValue
deriving DecidableEq, Repr

/-- One DXF tag: a group code paired with a value. -/
abbrev DxfTag := Nat × TagValue

/-- `ezdxf.lldxf.const.SUBCLASS_MARKER`: the group code of sub-record
(subclass) marker tags. -/
def SUBCLASS_MARKER : Nat := 100

/-- `ezdxf.lldxf.const.DXF12`: the version string of the legacy revision;
later revisions compare greater as strings. -/
def DXF12 : String := "AC1009"

/-- One attribute descriptor (`DXFAttr`): group code, default value and
optional flag.  The `xtype` of the source is reflected in the shape of the
default value. -/
structure DXFAttr where
  code : Nat
  defaultVal : TagValue
  optional : Bool
deriving DecidableEq, Repr

/-- A named sub-record schema (`DefSubclass`): the subclass name and its
attribute descriptors in declared order. -/
structure DefSubclass where
  name : String
  attribs : List (String × DXFAttr)
deriving DecidableEq, Repr

/-- The `acdb_point` schema of src/src/ezdxf/entities/point.py:
location (code 10, point3d, default (0,0,0)), thickness (code 39, default 0,
optional), extrusion (code 210, point3d, default (0,0,1), optional) and
angle (code 50, default 0, optional), in declared order. -/
def acdb_point : DefSubclass :=
  { name := "AcDbPoint"
    attribs :=
      [("location", ⟨10, TagValue.vec ⟨0, 0, 0⟩, false⟩),
       ("thickness", ⟨39, TagValue.num 0, true⟩),
       ("extrusion", ⟨210, TagValue.vec ⟨0, 0, 1⟩, true⟩),
       ("angle", ⟨50, TagValue.num 0, true⟩)] }

/-- Remove the first tag carrying the given group code from a tag list,
returning its value (if any) and the remaining tags. -/
def consume_first (code : Nat) : List DxfTag → Option TagValue × List DxfTag
  | [] => (none, [])
  | t :: rest =>
    if t.1 = code then (some t.2, rest)
    else
      let r := consume_first code rest
      (r.1, t :: r.2)

/-- Load the descriptors of a schema, in declared order, from a tag list:
for each descriptor the first tag with its group code is consumed into the
namespace; the tags consumed by no descriptor are returned as residue. -/
def load_attribs : List (String × DXFAttr) → List DxfTag →
    List (String × TagValue) × List DxfTag
  | [], tags => ([], tags)
  | na :: rest, tags =>
    let r := consume_first na.2.code tags
    let r2 := load_attribs rest r.2
    match r.1 with
    | some tv => ((na.1, tv) :: r2.1, r2.2)
    | none => r2

/-- Modelled from the spec: `SubclassProcessor.load_dxfattribs_into_namespace`
is not among the supplied sources.  Per the specification, each descriptor of
the schema applicable to the revision consumes, in encounter order, the first
matching tag of the matching sub-record; tags consumed by no descriptor are
returned (the residue). -/
def load_dxfattribs_into_namespace (tags : List DxfTag) (subclass : DefSubclass) :
    List (String × TagValue) × List DxfTag :=
  load_attribs subclass.attribs tags

/-- The state of the `SubclassProcessor` relevant to `Point.load_dxf_attribs`:
whether the legacy (R12) revision is active, and the tag list of the
`AcDbPoint` sub-record handed to the loader. -/
structure SubclassProcessor where
  r12 : Bool
  pointTags : List DxfTag
deriving DecidableEq, Repr

/-- Result of `Point.load_dxf_attribs`: the loaded namespace and the tags
reported via `processor.log_unprocessed_tags`. -/
structure LoadedPoint where
  dxf : List (String × TagValue)
  unprocessed : List DxfTag
deriving DecidableEq, Repr

/-- `Point.load_dxf_attribs`: loads the `acdb_point` schema from the
processor's tags; the leftover tags are logged as unprocessed only when the
list is non-empty and the revision is not R12
(`if len(tags) and not processor.r12`). -/
def Point.load_dxf_attribs (processor : SubclassProcessor) : LoadedPoint :=
  let r := load_dxfattribs_into_namespace processor.pointTags acdb_point
  { dxf := r.1
    unprocessed := if r.2.length ≠ 0 ∧ processor.r12 = false then r.2 else [] }

/-- Look a descriptor up by attribute name in a schema's declared list. -/
def find_attr : List (String × DXFAttr) → String → Option DXFAttr
  | [], _ => none
  | na :: rest, name => if na.1 = name then some na.2 else find_attr rest name

/-- Look an attribute value up in a namespace (the explicitly present
attributes of one entity). -/
def ns_get : List (String × TagValue) → String → Option TagValue
  | [], _ => none
  | nv :: rest, name => if nv.1 = name then some nv.2 else ns_get rest name

/-- Modelled from the spec: `DXFNamespace.export_dxf_attribs` is not among
the supplied sources.  Per the specification, an attribute is emitted when it
is present in the namespace (with its value) or required (non-optional, with
its default); untouched optional defaults are suppressed. -/
def export_dxf_attrib (ns : List (String × TagValue)) (subclass : DefSubclass)
    (name : String) : List DxfTag :=
  match find_attr subclass.attribs name with
  | none => []
  | some attr =>
    match ns_get ns name with
    | some v => [(attr.code, v)]
    | none => if attr.optional then [] else [(attr.code, attr.defaultVal)]

/-- Export a list of attribute names in the given order. -/
def export_dxf_attribs (ns : List (String × TagValue)) (subclass : DefSubclass) :
    List String → List DxfTag
  | [] => []
  | name :: rest => export_dxf_attrib ns subclass name ++ export_dxf_attribs ns subclass rest

/-- `Point.export_entity`: after the base-class export (out of scope here),
writes the subclass marker tag `(100, 'AcDbPoint')` only when
`tagwriter.dxfversion > DXF12`, then, for all DXF versions, exports
`['location', 'thickness', 'extrusion', 'angle']` in this order. -/
def Point.export_entity (dxfversion : String) (ns : List (String × TagValue)) :
    List DxfTag :=
  (if DXF12 < dxfversion then [(SUBCLASS_MARKER, TagValue.str acdb_point.name)] else []) ++
    export_dxf_attribs ns acdb_point ["location", "thickness", "extrusion", "angle"]

/-- The DXF error raised by `MeshData.add_vertex` on a malformed vertex
(`ezdxf.DXFValueError`, the spec's InvalidValue). -/
inductive DXFError where
  | DXFValueError : DXFError
deriving DecidableEq, Repr

/-- The structured payload of a mesh edit session (`MeshData` of
ezdxf.modern.mesh): parallel vertex, face and edge sequences with the
edge-crease weights.  The class itself is not among the supplied sources
(only its tests are); the data model follows the specification. -/
structure MeshData where
  vertices : List Vec3
  faces : List (List Nat)
  edges : List (Nat × Nat)
  edge_crease_values : List ℚ
deriving DecidableEq, Repr

/-- Deduplication by exact equality keeping the first occurrence of each
element, with an accumulator of elements already seen. -/
def dedup_first_go {α : Type} [DecidableEq α] (seen : List α) : List α → List α
  | [] => []
  | a :: l => if a ∈ seen then dedup_first_go seen l else a :: dedup_first_go (a :: seen) l

/-- Deduplication by exact equality, first-occurrence order. -/
def dedup_first {α : Type} [DecidableEq α] (l : List α) : List α :=
  dedup_first_go [] l

/-- Index of the first occurrence of an element in a list (length of the
list when absent). -/
def idx_of {α : Type} [DecidableEq α] (v : α) : List α → Nat
  | [] => 0
  | a :: l => if a = v then 0 else idx_of v l + 1

/-- The canonical-index mapping of `optimize`: an old vertex index is sent to
the index of its position in the deduplicated vertex list; an index with no
vertex behind it is left unchanged. -/
def remap_index (oldVertices newVertices : List Vec3) (i : Nat) : Nat :=
  match oldVertices[i]? with
  | some v => idx_of v newVertices
  | none => i

/-- Modelled from the spec: `MeshData.optimize` of ezdxf.modern.mesh is not
among the supplied sources.  Per the specification it builds a mapping from
each distinct vertex position (exact-equality keyed) to a canonical index in
first-occurrence order, rewrites every face's and edge's indices through that
mapping, replaces the vertex sequence with the deduplicated set, and drops
faces/edges left with fewer than their minimum required distinct indices
(3 for faces, 2 for edges).  The crease-weight sequence is not touched. -/
def MeshData.optimize (md : MeshData) : MeshData :=
  { vertices := dedup_first md.vertices
    faces :=
      (md.faces.map (fun f => f.map (remap_index md.vertices (dedup_first md.vertices)))).filter
        (fun f => decide (3 ≤ (dedup_first f).length))
    edges :=
      (md.edges.map (fun e =>
        (remap_index md.vertices (dedup_first md.vertices) e.1,
         remap_index md.vertices (dedup_first md.vertices) e.2))).filter
        (fun e => decide (e.1 ≠ e.2))
    edge_crease_values := md.edge_crease_values }

/-- Modelled from the spec: `MeshData.add_vertex` of ezdxf.modern.mesh is not
among the supplied sources.  Per the specification and the test
`test_vertex_format`, it fails with DXFValueError unless given exactly three
coordinates, rejecting the input before any mutation; on success the vertex
is appended and its index returned.  The result pairs the (possibly
unchanged) mesh state with the outcome. -/
def MeshData.add_vertex (md : MeshData) (vertex : List ℚ) :
    MeshData × Except DXFError Nat :=
  match vertex with
  | [x, y, z] =>
    ({ md with vertices := md.vertices ++ [⟨x, y, z⟩] }, Except.ok md.vertices.length)
  | _ => (md, Except.error DXFError.DXFValueError)

/-- Modelled from the spec and the test `test_add_faces`:
`MeshData.add_face` appends every vertex of the face and records the face as
the list of the appended vertex indices. -/
def MeshData.add_face (md : MeshData) (faceVertices : List Vec3) : MeshData :=
  { md with
    vertices := md.vertices ++ faceVertices
    faces := md.faces ++
      [(List.range faceVertices.length).map (fun k => k + md.vertices.length)] }

/-- The 8 distinct cube-corner positions of the `test_optimize` scenario. -/
def cube_corners : List Vec3 :=
  [⟨0, 0, 0⟩, ⟨1, 0, 0⟩, ⟨1, 1, 0⟩, ⟨0, 1, 0⟩,
   ⟨0, 0, 1⟩, ⟨1, 0, 1⟩, ⟨1, 1, 1⟩, ⟨0, 1, 1⟩]

/-- The 6 quadrilateral cube faces of the `test_optimize` scenario, as
indices into `cube_corners`. -/
def cube_face_indices : List (List Nat) :=
  [[0, 1, 2, 3], [4, 5, 6, 7], [0, 1, 5, 4],
   [1, 2, 6, 5], [3, 2, 6, 7], [0, 3, 7, 4]]

/-- A freshly added mesh: empty vertex, face, edge and crease sequences. -/
def empty_mesh : MeshData := ⟨[], [], [], []⟩

/-- The mesh of the `test_optimize` scenario: the 6 cube faces added one by
one, every corner stored redundantly (24 stored vertices for 8 positions). -/
def cube_mesh : MeshData :=
  cube_face_indices.foldl
    (fun md face => md.add_face (face.map (fun i => cube_corners.getD i ⟨0, 0, 0⟩)))
    empty_mesh

/-- Association-list lookup by key, first match wins (Python `dict.get`). -/
def alist_get {β : Type} : List (String × β) → String → Option β
  | [], _ => none
  | kv :: rest, n => if kv.1 = n then some kv.2 else alist_get rest n

/-- The specification's lookup order for the factory: consult the
revision-specific override table first, then fall back to the shared base
table. -/
def resolve_with_override {β : Type} (upd : List (String × β))
    (base : String → Option β) (n : String) : Option β :=
  match alist_get upd n with
  | some w => some w
  | none => base n

/-- An entity wrapper class, tagged with the module it comes from.  The
legacy constructor stands for entries of the shared legacy base table, whose
module is not among the supplied sources. -/
inductive WrapperClass where
  | dxfobjects : String → WrapperClass
  | tableentries : String → WrapperClass
  | graphics : String → WrapperClass
  | legacy : String → WrapperClass
deriving DecidableEq, Repr

/-- `UPDATE_ENTITY_WRAPPERS` of src/ezdxf/modern/__init__.py: the modern
override entries, in source order. -/
def UPDATE_ENTITY_WRAPPERS : List (String × WrapperClass) :=
  [("DICTIONARY", WrapperClass.dxfobjects "DXFDictionary"),
   ("ACDBDICTIONARYWDFLT", WrapperClass.dxfobjects "DXFDictionaryWithDefault"),
   ("PLOTSETTINGS", WrapperClass.dxfobjects "DXFPlotSettings"),
   ("LAYOUT", WrapperClass.dxfobjects "DXFLayout"),
   ("XRECORD", WrapperClass.dxfobjects "XRecord"),
   ("DATATABLE", WrapperClass.dxfobjects "DXFDataTable"),
   ("LAYER", WrapperClass.tableentries "Layer"),
   ("STYLE", WrapperClass.tableentries "Style"),
   ("LTYPE", WrapperClass.tableentries "Linetype"),
   ("DIMSTYLE", WrapperClass.tableentries "DimStyle"),
   ("VIEW", WrapperClass.tableentries "View"),
   ("VPORT", WrapperClass.tableentries "Viewport"),
   ("UCS", WrapperClass.tableentries "UCS"),
   ("APPID", WrapperClass.tableentries "AppID"),
   ("BLOCK_RECORD", WrapperClass.tableentries "BlockRecord"),
   ("LINE", WrapperClass.graphics "Line"),
   ("POINT", WrapperClass.graphics "Point"),
   ("CIRCLE", WrapperClass.graphics "Circle"),
   ("ARC", WrapperClass.graphics "Arc"),
   ("TRACE", WrapperClass.graphics "Trace"),
   ("SOLID", WrapperClass.graphics "Solid"),
   ("3DFACE", WrapperClass.graphics "Face"),
   ("TEXT", WrapperClass.graphics "Text"),
   ("MTEXT", WrapperClass.graphics "MText"),
   ("POLYLINE", WrapperClass.graphics "Polyline"),
   ("VERTEX", WrapperClass.graphics "Vertex"),
   ("SEQEND", WrapperClass.graphics "SeqEnd"),
   ("LWPOLYLINE", WrapperClass.graphics "LWPolyline"),
   ("BLOCK", WrapperClass.graphics "Block"),
   ("ENDBLK", WrapperClass.graphics "EndBlk"),
   ("INSERT", WrapperClass.graphics "Insert"),
   ("ATTDEF", WrapperClass.graphics "Attdef"),
   ("ATTRIB", WrapperClass.graphics "Attrib"),
   ("ELLIPSE", WrapperClass.graphics "Ellipse"),
   ("RAY", WrapperClass.graphics "Ray"),
   ("XLINE", WrapperClass.graphics "XLine"),
   ("SHAPE", WrapperClass.graphics "Shape"),
   ("SPLINE", WrapperClass.graphics "Spline"),
   ("BODY", WrapperClass.graphics "Body"),
   ("REGION", WrapperClass.graphics "Region"),
   ("3DSOLID", WrapperClass.graphics "Solid3d")]

/-- Python `dict.update` applied to a table represented as a lookup
function: the update entries are written one after the other, a later entry
with the same key overwriting an earlier one. -/
def dict_update {β : Type} (base : String → Option β) :
    List (String × β) → String → Option β
  | [], n => base n
  | kv :: rest, n =>
    dict_update (fun x => if x = kv.1 then some kv.2 else base x) rest n

/-- The modern factory's wrapper table: `ModernDXFFactory.__init__` copies
the legacy `ENTITY_WRAPPERS` table and runs
`self.ENTITY_WRAPPERS.update(UPDATE_ENTITY_WRAPPERS)`.  The legacy table
(`LegacyDXFFactory.ENTITY_WRAPPERS`, not among the supplied sources) is a
parameter. -/
def modern_entity_wrappers (legacyTable : String → Option WrapperClass) :
    String → Option WrapperClass :=
  dict_update legacyTable UPDATE_ENTITY_WRAPPERS

/-- A tag group as handed to `ModernDXFFactory.modify_tags`: its entity type
name (`tags.dxftype()`) and its tags. -/
structure Tags where
  dxftype : String
  content : List DxfTag
deriving DecidableEq, Repr

/-- `ModernDXFFactory.TAGS_MODIFIER`: the fixup-hook table of the modern
factory registers exactly one hook, `graphics.Vertex.fix_tags` under the
type name 'VERTEX'.  The hook itself is not among the supplied sources and
is a parameter. -/
def TAGS_MODIFIER (fix_tags : Tags → Tags) : List (String × (Tags → Tags)) :=
  [("VERTEX", fix_tags)]

/-- `ModernDXFFactory.modify_tags`: looks the type name up in
`TAGS_MODIFIER` (Python `dict.get(..., None)`) and applies the hook only
when one is registered; with no hook the tags are left as they are. -/
def ModernDXFFactory.modify_tags (fix_tags : Tags → Tags) (tags : Tags) : Tags :=
  match alist_get (TAGS_MODIFIER fix_tags) tags.dxftype with
  | some modifier => modifier tags
  | none => tags

/-- A concrete entity store for witnesses: every reference holds the default
POINT entity. -/
def sampleStore : PointStore :=
  fun _ => { location := ⟨0, 0, 0⟩, thickness := 0, extrusion := ⟨0, 0, 1⟩, angle := 0 }

/-- The identity affine transform, for witnesses. -/
def idMatrix44 : Matrix44 := ⟨1, 0, 0, 0, 1, 0, 0, 0, 1, 0, 0, 0⟩

/-- A concrete legacy wrapper table for witnesses: it resolves 'LINE' and
'VERTEX' (names also overridden by the modern table) and 'FOO' (a name only
the legacy table knows). -/
def sampleLegacyTable : String → Option WrapperClass :=
  fun n =>
    if n = "LINE" then some (WrapperClass.legacy "Line")
    else if n = "VERTEX" then some (WrapperClass.legacy "Vertex")
    else if n = "FOO" then some (WrapperClass.legacy "Foo")
    else none

/-- A concrete fixup hook for witnesses: it blanks the tag content. -/
def sampleFixTags : Tags → Tags := fun t => { t with content := [] }

/-- A concrete tag group of type 'LINE' for witnesses. -/
def sampleLineTags : Tags := { dxftype := "LINE", content := [(0, TagValue.str "LINE")] }

end Ezdxf

namespace Ezdxf

/-- A tag whose group code differs from the consumed code survives
`consume_first`. -/
theorem mem_consume_first_of_ne (code : Nat) :
    ∀ (tags : List DxfTag) (t : DxfTag), t ∈ tags → t.1 ≠ code →
      t ∈ (consume_first code tags).2 := by
  intro tags
  induction tags with
  | nil => intro t h _; exact absurd h (List.not_mem_nil t)
  | cons u rest ih =>
    intro t h hne
    by_cases hc : u.1 = code
    · rcases List.mem_cons.mp h with rfl | hmem
      · exact absurd hc hne
      · simpa [consume_first, hc] using hmem
    · rcases List.mem_cons.mp h with rfl | hmem
      · simp [consume_first, hc]
      · simp only [consume_first, hc, if_false, List.mem_cons]
        exact Or.inr (ih t hmem hne)

/-- A tag whose group code matches no descriptor of the schema ends up in
the residue of `load_attribs`. -/
theorem mem_load_attribs_residue :
    ∀ (attribs : List (String × DXFAttr)) (tags : List DxfTag) (t : DxfTag),
      t ∈ tags → (∀ na ∈ attribs, t.1 ≠ na.2.code) →
      t ∈ (load_attribs attribs tags).2 := by
  intro attribs
  induction attribs with
  | nil => intro tags t h _; exact h
  | cons na rest ih =>
    intro tags t h hcodes
    have h1 : t ∈ (consume_first na.2.code tags).2 :=
      mem_consume_first_of_ne na.2.code tags t h (hcodes na (List.mem_cons_self na rest))
    have h2 : t ∈ (load_attribs rest (consume_first na.2.code tags).2).2 :=
      ih _ t h1 (fun nb hnb => hcodes nb (List.mem_cons_of_mem na hnb))
    cases hr : (consume_first na.2.code tags).1 <;>
      simpa [load_attribs, hr] using h2

/-- Every element of the deduplicated list comes from the input list. -/
theorem mem_of_mem_dedup_first_go {α : Type} [DecidableEq α] :
    ∀ (seen l : List α) (x : α), x ∈ dedup_first_go seen l → x ∈ l := by
  intro seen l
  induction l generalizing seen with
  | nil => intro x hx; exact absurd hx (List.not_mem_nil x)
  | cons a l ih =>
    intro x hx
    by_cases ha : a ∈ seen
    · simp only [dedup_first_go, if_pos ha] at hx
      exact List.mem_cons_of_mem a (ih seen x hx)
    · simp only [dedup_first_go, if_neg ha, List.mem_cons] at hx
      rcases hx with rfl | hx
      · exact List.mem_cons_self x l
      · exact List.mem_cons_of_mem a (ih (a :: seen) x hx)

/-- No element of the deduplicated list was already seen. -/
theorem not_mem_seen_of_mem_dedup_first_go {α : Type} [DecidableEq α] :
    ∀ (seen l : List α) (x : α), x ∈ dedup_first_go seen l → x ∉ seen := by
  intro seen l
  induction l generalizing seen with
  | nil => intro x hx; exact absurd hx (List.not_mem_nil x)
  | cons a l ih =>
    intro x hx
    by_cases ha : a ∈ seen
    · simp only [dedup_first_go, if_pos ha] at hx
      exact ih seen x hx
    · simp only [dedup_first_go, if_neg ha, List.mem_cons] at hx
      rcases hx with rfl | hx
      · exact ha
      · intro hs
        exact ih (a :: seen) x hx (List.mem_cons_of_mem a hs)

/-- The deduplicated list has no duplicates. -/
theorem nodup_dedup_first_go {α : Type} [DecidableEq α] :
    ∀ (seen l : List α), (dedup_first_go seen l).Nodup := by
  intro seen l
  induction l generalizing seen with
  | nil => exact List.nodup_nil
  | cons a l ih =>
    by_cases ha : a ∈ seen
    · simpa [dedup_first_go, ha] using ih seen
    · simp only [dedup_first_go, if_neg ha]
      refine List.nodup_cons.mpr ⟨?_, ih (a :: seen)⟩
      intro hmem
      exact not_mem_seen_of_mem_dedup_first_go (a :: seen) l a hmem
        (List.mem_cons_self a seen)

/-- Deduplicating a duplicate-free list whose elements avoid the seen
accumulator returns the list unchanged. -/
theorem dedup_first_go_eq_self {α : Type} [DecidableEq α] :
    ∀ (seen l : List α), l.Nodup → (∀ x ∈ l, x ∉ seen) →
      dedup_first_go seen l = l := by
  intro seen l
  induction l generalizing seen with
  | nil => intro _ _; rfl
  | cons a l ih =>
    intro hnd hout
    have ha : a ∉ seen := hout a (List.mem_cons_self a l)
    have hal : a ∉ l := (List.nodup_cons.mp hnd).1
    simp only [dedup_first_go, if_neg ha]
    refine congrArg (a :: ·) (ih (a :: seen) (List.nodup_cons.mp hnd).2 ?_)
    intro x hx
    simp only [List.mem_cons, not_or]
    exact ⟨fun he => hal (he ▸ hx), hout x (List.mem_cons_of_mem a hx)⟩

/-- `dedup_first` produces a duplicate-free list. -/
theorem dedup_first_nodup {α : Type} [DecidableEq α] (l : List α) :
    (dedup_first l).Nodup :=
  nodup_dedup_first_go [] l

/-- `dedup_first` leaves a duplicate-free list unchanged. -/
theorem dedup_first_eq_self_of_nodup {α : Type} [DecidableEq α] (l : List α)
    (h : l.Nodup) : dedup_first l = l :=
  dedup_first_go_eq_self [] l h (fun x _ => List.not_mem_nil x)

/-- On a duplicate-free list, `idx_of` inverts indexing. -/
theorem idx_of_get_of_nodup {α : Type} [DecidableEq α] :
    ∀ (l : List α), l.Nodup → ∀ (i : Nat) (h : i < l.length),
      idx_of (l.get ⟨i, h⟩) l = i := by
  intro l
  induction l with
  | nil => intro _ i h; exact absurd h (Nat.not_lt_zero i)
  | cons a l ih =>
    intro hnd i h
    cases i with
    | zero => simp [idx_of]
    | succ j =>
      have hj : j < l.length := Nat.lt_of_succ_lt_succ h
      have hv : (a :: l).get ⟨j + 1, h⟩ = l.get ⟨j, hj⟩ := rfl
      have hmem : l.get ⟨j, hj⟩ ∈ l := List.get_mem l j hj
      have hne : a ≠ l.get ⟨j, hj⟩ := by
        intro he
        exact (List.nodup_cons.mp hnd).1 (he ▸ hmem)
      rw [hv]
      simp only [idx_of, if_neg hne]
      rw [ih (List.nodup_cons.mp hnd).2 j hj]

/-- Remapping through the deduplication of an already duplicate-free vertex
list is the identity. -/
theorem remap_index_dedup_self (vs : List Vec3) (hv : vs.Nodup) (i : Nat) :
    remap_index vs (dedup_first vs) i = i := by
  rw [remap_index, dedup_first_eq_self_of_nodup vs hv]
  cases hg : vs[i]? with
  | none => rfl
  | some v =>
    have hi : i < vs.length := by
      by_contra hge
      rw [List.getElem?_eq_none (Nat.le_of_not_lt hge)] at hg
      exact Option.noConfusion hg
    have hvv : v = vs.get ⟨i, hi⟩ := by
      have hsome : some v = some (vs.get ⟨i, hi⟩) := by
        rw [← hg, List.getElem?_eq_getElem hi]
        rfl
      exact Option.some.inj hsome
    rw [hvv]
    exact idx_of_get_of_nodup vs hv i hi

/-- C1: `Point.transform` maps the location through the full affine transform
and leaves the orientation angle completely unchanged. -/
theorem point_transform_location_angle (p : Point) (m : Matrix44) :
    (p.transform m).location = m.transform p.location ∧
    (p.transform m).angle = p.angle := by
  constructor <;>
    simp [Point.transform, transform_thickness_and_extrusion_without_ocs]

/-- C2: `Point.translate` replaces the location by `location + (dx, dy, dz)`
and leaves thickness, extrusion and angle untouched. -/
theorem point_translate_only_location (p : Point) (dx dy dz : ℚ) :
    (p.translate dx dy dz).location = p.location + Vec3.mk dx dy dz ∧
    (p.translate dx dy dz).thickness = p.thickness ∧
    (p.translate dx dy dz).extrusion = p.extrusion ∧
    (p.translate dx dy dz).angle = p.angle := by
  refine ⟨?_, rfl, rfl, rfl⟩
  simp [Point.translate, Vec3.add_def, Rat.add_comm]

/-- C3 counterexample: under the legacy (R12) revision a tag consumed by no
descriptor of the point schema (here group code 999) is returned by the
loader but is not reported as residue — it is silently discarded, against
the claim that this happens under every revision. -/
theorem point_load_residue_r12_counterexample :
    (load_dxfattribs_into_namespace [(999, TagValue.num 0)] acdb_point).2 =
      [(999, TagValue.num 0)] ∧
    (Point.load_dxf_attribs ⟨true, [(999, TagValue.num 0)]⟩).unprocessed = [] := by
  decide

/-- C3 (amended): under every revision other than the legacy R12 revision,
`Point.load_dxf_attribs` reports exactly the loader's residue as unprocessed
tags, and in particular every tag whose group code matches no descriptor of
the point schema (codes 10, 39, 210, 50) is reported, never discarded. -/
theorem point_load_residue_reported_when_not_r12 (processor : SubclassProcessor)
    (h : processor.r12 = false) :
    (Point.load_dxf_attribs processor).unprocessed =
      (load_dxfattribs_into_namespace processor.pointTags acdb_point).2 ∧
    ∀ t ∈ processor.pointTags, t.1 ∉ ([10, 39, 210, 50] : List Nat) →
      t ∈ (Point.load_dxf_attribs processor).unprocessed := by
  have hmain : (Point.load_dxf_attribs processor).unprocessed =
      (load_dxfattribs_into_namespace processor.pointTags acdb_point).2 := by
    by_cases hz :
        (load_dxfattribs_into_namespace processor.pointTags acdb_point).2.length = 0
    · rw [List.length_eq_zero] at hz
      simp [Point.load_dxf_attribs, h, hz]
    · simp [Point.load_dxf_attribs, h, hz]
  refine ⟨hmain, ?_⟩
  intro t ht hcodes
  rw [hmain]
  refine mem_load_attribs_residue acdb_point.attribs processor.pointTags t ht ?_
  simp only [List.mem_cons, List.not_mem_nil, or_false, not_or] at hcodes
  intro na hna
  simp only [acdb_point, List.mem_cons, List.not_mem_nil, or_false] at hna
  rcases hna with rfl | rfl | rfl | rfl
  · exact hcodes.1
  · exact hcodes.2.1
  · exact hcodes.2.2.1
  · exact hcodes.2.2.2

/-- Witness for C3 (amended): a modern-revision processor holding one
unknown tag (code 999); the tag is reported as unprocessed. -/
theorem point_load_residue_reported_witness :
    ((999, TagValue.num 0) : DxfTag) ∈
      (Point.load_dxf_attribs ⟨false, [(999, TagValue.num 0)]⟩).unprocessed :=
  (point_load_residue_reported_when_not_r12 ⟨false, [(999, TagValue.num 0)]⟩ rfl).2
    (999, TagValue.num 0) (by decide) (by decide)

/-- C5: `MeshData.add_vertex` fails with DXFValueError on every input whose
component count is not exactly three, and the mesh state it hands back is
the unchanged input state — no mutation happens on the failing path. -/
theorem add_vertex_wrong_arity (md : MeshData) (v : List ℚ) (h : v.length ≠ 3) :
    (md.add_vertex v).1 = md ∧
    (md.add_vertex v).2 = Except.error DXFError.DXFValueError := by
  rcases v with _ | ⟨a, _ | ⟨b, _ | ⟨c, _ | ⟨d, rest⟩⟩⟩⟩
  · exact ⟨rfl, rfl⟩
  · exact ⟨rfl, rfl⟩
  · exact ⟨rfl, rfl⟩
  · exact absurd rfl h
  · exact ⟨rfl, rfl⟩

/-- Witness for C5: adding the 2-component vertex (0, 0) to an empty mesh
fails with DXFValueError and leaves the mesh unchanged. -/
theorem add_vertex_wrong_arity_witness :
    ([(0 : ℚ), 0] : List ℚ).length ≠ 3 ∧
    (empty_mesh.add_vertex [0, 0]).1 = empty_mesh ∧
    (empty_mesh.add_vertex [0, 0]).2 = Except.error DXFError.DXFValueError := by
  have h := add_vertex_wrong_arity empty_mesh [0, 0] (by decide)
  exact ⟨by decide, h.1, h.2⟩

/-- C6: for the cube scenario (6 quadrilateral faces over 8 distinct corner
positions stored redundantly as 24 vertices), `optimize` yields exactly the
8 distinct positions in first-occurrence order, keeps all 6 faces, and every
remapped face has 4 distinct indices, each in range [0, 8). -/
theorem cube_mesh_optimize_result :
    cube_mesh.vertices.length = 24 ∧
    cube_mesh.faces.length = 6 ∧
    cube_mesh.optimize.vertices = cube_corners ∧
    cube_mesh.optimize.vertices.length = 8 ∧
    cube_mesh.optimize.faces.length = 6 ∧
    (∀ f ∈ cube_mesh.optimize.faces,
      (dedup_first f).length = 4 ∧ ∀ i ∈ f, i < 8) := by
  decide

/-- C7: `optimize` is idempotent — a second application changes none of the
vertex, face, edge and crease arrays. -/
theorem optimize_idempotent (md : MeshData) :
    md.optimize.optimize = md.optimize := by
  have hnd : (dedup_first md.vertices).Nodup := dedup_first_nodup md.vertices
  have hfun : remap_index (dedup_first md.vertices)
      (dedup_first (dedup_first md.vertices)) = fun i => i :=
    funext (remap_index_dedup_self (dedup_first md.vertices) hnd)
  unfold MeshData.optimize
  simp only [MeshData.mk.injEq]
  refine ⟨dedup_first_eq_self_of_nodup _ hnd, ?_, ?_, trivial⟩
  · rw [hfun]
    simp only [List.map_id']
    exact List.filter_eq_self.mpr (fun f hf => (List.mem_filter.mp hf).2)
  · rw [hfun]
    simp only [Prod.mk.eta, List.map_id']
    exact List.filter_eq_self.mpr (fun e he => (List.mem_filter.mp he).2)

/-- C9: `transform` and `translate` overwrite the entity behind the
reference they are called on (and only that entity) and return the very
same reference (`return self`), enabling chaining. -/
theorem point_methods_in_place_return_self (s : PointStore) (i : Nat)
    (m : Matrix44) (dx dy dz : ℚ) :
    (Point.transformInPlace s i m).2 = i ∧
    (Point.translateInPlace s i dx dy dz).2 = i ∧
    (Point.transformInPlace s i m).1 i = (s i).transform m ∧
    (Point.translateInPlace s i dx dy dz).1 i = (s i).translate dx dy dz ∧
    (∀ j, j ≠ i → (Point.transformInPlace s i m).1 j = s j) ∧
    (∀ j, j ≠ i → (Point.translateInPlace s i dx dy dz).1 j = s j) := by
  refine ⟨rfl, rfl, by simp [Point.transformInPlace],
    by simp [Point.translateInPlace], ?_, ?_⟩ <;>
    exact fun j hj => by simp [Point.transformInPlace, Point.translateInPlace, hj]

/-- Witness for C9: on a concrete store and reference 0, the methods return
reference 0 and leave the entity behind reference 7 alone. -/
theorem point_methods_in_place_return_self_witness :
    (Point.transformInPlace sampleStore 0 idMatrix44).2 = 0 ∧
    (Point.translateInPlace sampleStore 0 1 2 3).1 7 = sampleStore 7 := by
  have h := point_methods_in_place_return_self sampleStore 0 idMatrix44 1 2 3
  exact ⟨h.1, h.2.2.2.2.2 7 (by decide)⟩

/-- An exported attribute contributes either nothing or exactly one tag,
carrying its descriptor's group code. -/
theorem export_attrib_codes_sub (ns : List (String × TagValue))
    (subclass : DefSubclass) (name : String) (a : DXFAttr)
    (hf : find_attr subclass.attribs name = some a) :
    ((export_dxf_attrib ns subclass name).map Prod.fst).Sublist [a.code] := by
  unfold export_dxf_attrib
  rw [hf]
  cases hg : ns_get ns name with
  | none =>
    by_cases ho : a.optional
    · simp [ho]
    · simp only [ho, if_false, List.map_cons, List.map_nil]
      exact List.Sublist.refl _
  | some v =>
    simp only [List.map_cons, List.map_nil]
    exact List.Sublist.refl _

/-- The group codes emitted for the point attributes follow the declared
schema code order 10, 39, 210, 50 (each appearing at most once). -/
theorem export_point_attrib_codes (ns : List (String × TagValue)) :
    ((export_dxf_attribs ns acdb_point
      ["location", "thickness", "extrusion", "angle"]).map Prod.fst).Sublist
      [10, 39, 210, 50] := by
  have h1 := export_attrib_codes_sub ns acdb_point "location"
    ⟨10, TagValue.vec ⟨0, 0, 0⟩, false⟩ rfl
  have h2 := export_attrib_codes_sub ns acdb_point "thickness"
    ⟨39, TagValue.num 0, true⟩ rfl
  have h3 := export_attrib_codes_sub ns acdb_point "extrusion"
    ⟨210, TagValue.vec ⟨0, 0, 1⟩, true⟩ rfl
  have h4 := export_attrib_codes_sub ns acdb_point "angle"
    ⟨50, TagValue.num 0, true⟩ rfl
  show ((export_dxf_attrib ns acdb_point "location" ++
    (export_dxf_attrib ns acdb_point "thickness" ++
      (export_dxf_attrib ns acdb_point "extrusion" ++
        (export_dxf_attrib ns acdb_point "angle" ++ [])))).map Prod.fst).Sublist
    ([10] ++ ([39] ++ ([210] ++ ([50] ++ []))))
  simp only [List.map_append]
  exact h1.append (h2.append (h3.append (h4.append (List.Sublist.refl []))))

/-- C4: `Point.export_entity` writes the sub-record marker tag
(100, 'AcDbPoint') exactly when the target revision is later than DXF12,
and for all revisions then emits the attributes in the declared schema
order location, thickness, extrusion, angle (group codes 10, 39, 210, 50). -/
theorem point_export_marker_iff_and_order (ver : String)
    (ns : List (String × TagValue)) :
    (((SUBCLASS_MARKER, TagValue.str "AcDbPoint") : DxfTag) ∈
        Point.export_entity ver ns ↔ DXF12 < ver) ∧
    acdb_point.attribs.map Prod.fst = ["location", "thickness", "extrusion", "angle"] ∧
    Point.export_entity ver ns =
      (if DXF12 < ver then [((SUBCLASS_MARKER, TagValue.str "AcDbPoint") : DxfTag)] else []) ++
        export_dxf_attribs ns acdb_point ["location", "thickness", "extrusion", "angle"] ∧
    ((export_dxf_attribs ns acdb_point
        ["location", "thickness", "extrusion", "angle"]).map Prod.fst).Sublist
      [10, 39, 210, 50] := by
  have hcodes := export_point_attrib_codes ns
  have hnomem : ((SUBCLASS_MARKER, TagValue.str "AcDbPoint") : DxfTag) ∉
      export_dxf_attribs ns acdb_point ["location", "thickness", "extrusion", "angle"] := by
    intro hmem
    have hfst : (SUBCLASS_MARKER : Nat) ∈
        (export_dxf_attribs ns acdb_point
          ["location", "thickness", "extrusion", "angle"]).map Prod.fst :=
      List.mem_map_of_mem Prod.fst hmem
    have : (SUBCLASS_MARKER : Nat) ∈ ([10, 39, 210, 50] : List Nat) :=
      hcodes.subset hfst
    simp [SUBCLASS_MARKER] at this
  refine ⟨?_, rfl, rfl, hcodes⟩
  rw [Point.export_entity]
  constructor
  · intro hm
    rcases List.mem_append.mp hm with hL | hR
    · by_cases hv : DXF12 < ver
      · exact hv
      · rw [if_neg hv] at hL
        exact absurd hL (List.not_mem_nil _)
    · exact absurd hR hnomem
  · intro hv
    rw [if_pos hv]
    exact List.mem_append_left _ (List.mem_singleton.mpr rfl)

/-- Lookup misses every key absent from an association list. -/
theorem alist_get_eq_none_of_not_mem {β : Type} :
    ∀ (l : List (String × β)) (n : String), n ∉ l.map Prod.fst →
      alist_get l n = none := by
  intro l
  induction l with
  | nil => intro n _; rfl
  | cons kv rest ih =>
    intro n hn
    simp only [List.map_cons, List.mem_cons, not_or] at hn
    rw [alist_get, if_neg (Ne.symm hn.1)]
    exact ih n hn.2

/-- Dictionary update as iterated overwriting agrees with lookup-first-in-
the-update-then-in-the-base, as long as the update's keys are distinct. -/
theorem dict_update_get {β : Type} :
    ∀ (upd : List (String × β)) (base : String → Option β) (n : String),
      (upd.map Prod.fst).Nodup →
      dict_update base upd n = resolve_with_override upd base n := by
  intro upd
  induction upd with
  | nil => intro base n _; rfl
  | cons kv rest ih =>
    intro base n hnd
    simp only [List.map_cons, List.nodup_cons] at hnd
    have hstep : dict_update base (kv :: rest) n =
        dict_update (fun x => if x = kv.1 then some kv.2 else base x) rest n := rfl
    rw [hstep, ih _ n hnd.2]
    unfold resolve_with_override
    by_cases he : kv.1 = n
    · have hrest : alist_get rest n = none :=
        alist_get_eq_none_of_not_mem rest n (he ▸ hnd.1)
      rw [hrest]
      simp [alist_get, he]
    · rw [alist_get, if_neg he]
      cases hr : alist_get rest n with
      | some w => rfl
      | none =>
        simp only []
        rw [if_neg (fun hh : n = kv.1 => he hh.symm)]

/-- C8: the modern factory's wrapper table is the legacy base table updated
(overridden) by the modern override entries: lookup resolves through the
override entries first and falls back to the legacy table, so a type name
present in both resolves to the modern variant and a type name only the
legacy table knows resolves to the legacy variant. -/
theorem modern_factory_table_layering (legacyTable : String → Option WrapperClass)
    (n : String) :
    modern_entity_wrappers legacyTable n =
      resolve_with_override UPDATE_ENTITY_WRAPPERS legacyTable n ∧
    (∀ w, alist_get UPDATE_ENTITY_WRAPPERS n = some w →
      modern_entity_wrappers legacyTable n = some w) ∧
    (alist_get UPDATE_ENTITY_WRAPPERS n = none →
      modern_entity_wrappers legacyTable n = legacyTable n) := by
  have hnd : (UPDATE_ENTITY_WRAPPERS.map Prod.fst).Nodup := by decide
  have hmain := dict_update_get UPDATE_ENTITY_WRAPPERS legacyTable n hnd
  unfold modern_entity_wrappers
  refine ⟨hmain, ?_, ?_⟩
  · intro w hw
    rw [hmain]
    unfold resolve_with_override
    rw [hw]
  · intro hw
    rw [hmain]
    unfold resolve_with_override
    rw [hw]

/-- Witness for C8: against a concrete legacy table, 'LINE' (present in
both tables) resolves to the modern graphics variant while 'FOO' (present
only in the legacy table) resolves to the legacy variant. -/
theorem modern_factory_table_layering_witness :
    modern_entity_wrappers sampleLegacyTable "LINE" =
      some (WrapperClass.graphics "Line") ∧
    modern_entity_wrappers sampleLegacyTable "FOO" =
      some (WrapperClass.legacy "Foo") := by
  constructor
  · exact (modern_factory_table_layering sampleLegacyTable "LINE").2.1
      (WrapperClass.graphics "Line") (by decide)
  · have h := (modern_factory_table_layering sampleLegacyTable "FOO").2.2 (by decide)
    rw [h]
    rfl

/-- C10: `ModernDXFFactory.modify_tags` applies a fixup only when a hook is
registered for the tag group's exact type name; the modern factory registers
a hook for 'VERTEX' only, so every tag group of any other type name is left
completely unchanged. -/
theorem modify_tags_no_hook_unchanged (fix_tags : Tags → Tags) (tags : Tags)
    (h : tags.dxftype ≠ "VERTEX") :
    ModernDXFFactory.modify_tags fix_tags tags = tags := by
  simp [ModernDXFFactory.modify_tags, TAGS_MODIFIER, alist_get, Ne.symm h]

/-- Witness for C10: a concrete hook and a tag group of type 'LINE'; the
group passes through `modify_tags` unchanged. -/
theorem modify_tags_no_hook_unchanged_witness :
    ModernDXFFactory.modify_tags sampleFixTags sampleLineTags = sampleLineTags :=
  modify_tags_no_hook_unchanged sampleFixTags sampleLineTags (by decide)

end Ezdxf
